import Mathlib

/-
Shallow embedding of src/cpp/include/raft/comms/std/std_comms.hpp.

The communicator's registry state (_next_request_id, _requests_in_flight,
_free_requests) is modelled explicitly; the foreign transports (UCX, NCCL,
CUDA) are modelled as environments of oracles consumed by the polling loops,
indexed by call count.  Unbounded while-loops take fuel and report a
`running` outcome when it is exhausted.
-/

namespace StdComms

/-- Portable datatype tags (comms::datatype_t). -/
inductive datatype_t
  | CHAR | UINT8 | INT | UINT | INT64 | UINT64 | FLOAT | DOUBLE
deriving DecidableEq

/-- Portable reduction-operator tags (comms::op_t). -/
inductive op_t
  | SUM | PROD | MIN | MAX
deriving DecidableEq

/-- Byte width of each element type, as sizeof(..) on the target platform
(getDatatypeSize in the source). -/
def getDatatypeSize : datatype_t → Nat
  | .CHAR => 1
  | .UINT8 => 1
  | .INT => 4
  | .UINT => 4
  | .INT64 => 8
  | .UINT64 => 8
  | .FLOAT => 4
  | .DOUBLE => 8

/-- Compile-time flag of the source (constexpr bool UCX_ENABLED = true). -/
def UCX_ENABLED : Bool := true

/-- Request identifiers (request_t): process-local integers. -/
abbrev request_t := Nat

/-- Registry state of a std_comms instance: the mutable fields
_next_request_id, _requests_in_flight (unordered_map from id to the malloc-ed
ucp_request pointer, modelled as a key-unique association list) and
_free_requests (unordered_set, modelled as a duplicate-free list whose head
plays the role of begin()). -/
structure CommState where
  next_request_id : request_t
  requests_in_flight : List (request_t × Nat)
  free_requests : List request_t
deriving DecidableEq

/-- Construction-time configuration relevant to the point-to-point calls:
whether the p2p constructor ran (p2p_enabled) and whether _ucp_worker is a
non-null handle. -/
structure CommConfig where
  p2p_enabled : Bool
  ucp_worker_present : Bool
deriving DecidableEq

/-- Failure conditions surfaced by ASSERT in the source. -/
inductive CommError
  | ucxNotBuilt
  | notInitializedForP2p
  | ucpWorkerNotInitialized
  | invalidRequest (id : request_t)
  | timedOut
  | ucxRequestNotValidPtr
  | ucxRequestError
  | ucxCompletedInvalid
  | syncStreamFailed
  | commSplitNotSupported
deriving DecidableEq

/-- Result of an operation that may throw while leaving the (mutable,
member-field) registry state behind: both branches carry the state as it is
at the return or at the throw. -/
inductive OpResult (α : Type)
  | ok (value : α) (state : CommState)
  | err (e : CommError) (state : CommState)
deriving DecidableEq

/-- State component of an operation result. -/
def opState {α : Type} : OpResult α → CommState
  | .ok _ s => s
  | .err _ s => s

/-- Lookup in the in-flight unordered_map (find). -/
def mapLookup (k : request_t) : List (request_t × Nat) → Option Nat
  | [] => none
  | (k2, v) :: rest => if k2 = k then some v else mapLookup k rest

/-- Insert into the in-flight unordered_map: no effect when the key is
already present, as with std::unordered_map::insert. -/
def mapInsert (k : request_t) (v : Nat) (m : List (request_t × Nat)) :
    List (request_t × Nat) :=
  match mapLookup k m with
  | some _ => m
  | none => m ++ [(k, v)]

/-- Erase the entry found for a key from the in-flight unordered_map
(erase of the iterator returned by find: removes one entry). -/
def mapErase (k : request_t) : List (request_t × Nat) → List (request_t × Nat)
  | [] => []
  | (k2, v) :: rest => if k2 = k then rest else (k2, v) :: mapErase k rest

/-- Insert into the free-request unordered_set: no effect on a duplicate. -/
def setInsert (x : request_t) (l : List request_t) : List request_t :=
  if x ∈ l then l else l ++ [x]

/-- Keys of the in-flight map. -/
def keysOf (m : List (request_t × Nat)) : List request_t := m.map Prod.fst

/-- Keys of a state's In-Flight Request Table. -/
def inFlightKeys (s : CommState) : List request_t := keysOf s.requests_in_flight

/-- get_request_id: pop a free identifier if any, else take the counter's
current value and post-increment it.  Returns the id written through *req
together with the updated registry state. -/
def get_request_id (s : CommState) : request_t × CommState :=
  match s.free_requests with
  | [] => (s.next_request_id, { s with next_request_id := s.next_request_id + 1 })
  | id :: rest => (id, { s with free_requests := rest })

/-- isend: after the UCX_ENABLED / p2p_enabled / _ucp_worker asserts, draw a
request id, issue the transport send (irrelevant to registry state; the
malloc-ed ucp_request pointer is the `ucp_req` argument) and record the pair
in the in-flight map. -/
def isend (cfg : CommConfig) (ucp_req : Nat) (s : CommState) : OpResult request_t :=
  if UCX_ENABLED = false then .err .ucxNotBuilt s
  else if cfg.p2p_enabled = false then .err .notInitializedForP2p s
  else if cfg.ucp_worker_present = false then .err .ucpWorkerNotInitialized s
  else
    let (req_id, s1) := get_request_id s
    .ok req_id { s1 with requests_in_flight := mapInsert req_id ucp_req s1.requests_in_flight }

/-- irecv: identical registry behaviour to isend (the transport call differs
only in direction). -/
def irecv (cfg : CommConfig) (ucp_req : Nat) (s : CommState) : OpResult request_t :=
  if UCX_ENABLED = false then .err .ucxNotBuilt s
  else if cfg.p2p_enabled = false then .err .notInitializedForP2p s
  else if cfg.ucp_worker_present = false then .err .ucpWorkerNotInitialized s
  else
    let (req_id, s1) := get_request_id s
    .ok req_id { s1 with requests_in_flight := mapInsert req_id ucp_req s1.requests_in_flight }

/-- Oracle environment for waitall's polling loop.  timeAt k is the value of
the k-th call to time(NULL); progressAt k the return value of the k-th call
to ucp_progress; needs_release, is_ptr and is_err are per-handle attributes
of the ucp_request records; completedAt h p is the completed field of handle
h observed after p ucp_progress calls have been made. -/
structure TransportEnv where
  timeAt : Nat → Int
  progressAt : Nat → Nat
  needs_release : Nat → Bool
  is_ptr : Nat → Bool
  is_err : Nat → Bool
  completedAt : Nat → Nat → Int

/-- First phase of waitall (the for-loop over array_of_requests): each id is
looked up in the in-flight map — an absent id trips the invalid-request
assert — its handle is pushed onto the local requests vector, the id is
inserted into _free_requests and erased from _requests_in_flight. -/
def waitallCollect : List request_t → List Nat → CommState →
    Option CommError × List Nat × CommState
  | [], acc, s => (none, acc, s)
  | id :: rest, acc, s =>
    match mapLookup id s.requests_in_flight with
    | none => (some (.invalidRequest id), acc, s)
    | some h =>
      waitallCollect rest (acc ++ [h])
        { s with
          free_requests := setInsert id s.free_requests,
          requests_in_flight := mapErase id s.requests_in_flight }

/-- The inner `while (ucp_progress(..) != 0)` drain: repeatedly call the
progress oracle; `restart` becomes true when any call returned nonzero.
Returns the restart flag and the updated progress-call count, or none when
fuel runs out. -/
def drainProgress (env : TransportEnv) : Nat → Nat → Bool → Option (Bool × Nat)
  | 0, _, _ => none
  | fuel + 1, p, restart =>
    if env.progressAt p ≠ 0 then drainProgress env fuel (p + 1) true
    else some (restart, p + 1)

/-- Result of one pass of the for-loop over the pending requests vector. -/
inductive PassResult
  | ok (remaining : List Nat) (p : Nat) (t : Nat) (start : Int)
  | fail (e : CommError)
  | fuelOut
deriving Inhabited

/-- One pass of waitall's inner for-loop: for each pending handle, drain
progress, run the needs_release validity asserts, clean up requests that
were synchronous or whose completed flag is 1 (erasing them from the
vector), and reset the stall-timer start whenever progress or a completion
was seen in that iteration. -/
def waitallPass (env : TransportEnv) (fuel : Nat) :
    List Nat → Nat → Nat → Int → PassResult
  | [], p, t, start => .ok [] p t start
  | h :: rest, p, t, start =>
    match drainProgress env fuel p false with
    | none => .fuelOut
    | some (restart0, p1) =>
      if env.needs_release h && !(env.is_ptr h) then .fail .ucxRequestNotValidPtr
      else if env.needs_release h && env.is_err h then .fail .ucxRequestError
      else if env.needs_release h &&
          !(env.completedAt h p1 == 1 || env.completedAt h p1 == 0) then
        .fail .ucxCompletedInvalid
      else
        let cleaned := !(env.needs_release h) || (env.completedAt h p1 == 1)
        let restart1 := restart0 || cleaned
        let start1 := if restart1 then env.timeAt t else start
        let t1 := if restart1 then t + 1 else t
        match waitallPass env fuel rest p1 t1 start1 with
        | .ok remaining p2 t2 start2 =>
          if cleaned then .ok remaining p2 t2 start2
          else .ok (h :: remaining) p2 t2 start2
        | .fail e => .fail e
        | .fuelOut => .fuelOut

/-- Overall outcome of a blocking operation: normal return, an ASSERT
failure, or still running (the model's fuel was exhausted). -/
inductive WaitOutcome
  | success
  | failure (e : CommError)
  | running
deriving DecidableEq

/-- The outer `while (requests.size() > 0)` loop of waitall: re-read the
clock, fail with the timeout assert when 10 or more seconds passed with no
progress, otherwise run one pass over the pending vector. -/
def waitallLoop (env : TransportEnv) : Nat → List Nat → Nat → Nat → Int → WaitOutcome
  | 0, _, _, _, _ => .running
  | fuel + 1, requests, p, t, start =>
    match requests with
    | [] => .success
    | _ :: _ =>
      let now := env.timeAt t
      if 10 ≤ now - start then .failure .timedOut
      else
        match waitallPass env (fuel + 1) requests p (t + 1) start with
        | .fail e => .failure e
        | .fuelOut => .running
        | .ok remaining p2 t2 start2 => waitallLoop env fuel remaining p2 t2 start2

/-- waitall: the configuration asserts, then `start = time(NULL)` (the 0-th
time call), then the collect phase moving every named id out of the
in-flight map and into the free set, then the polling loop.  The returned
state is the registry state at return or at the throw; the polling loop
itself never touches the registry. -/
def waitall (cfg : CommConfig) (env : TransportEnv) (fuel : Nat)
    (array_of_requests : List request_t) (s : CommState) : WaitOutcome × CommState :=
  if UCX_ENABLED = false then (.failure .ucxNotBuilt, s)
  else if cfg.p2p_enabled = false then (.failure .notInitializedForP2p, s)
  else if cfg.ucp_worker_present = false then (.failure .ucpWorkerNotInitialized, s)
  else
    let start := env.timeAt 0
    match waitallCollect array_of_requests [] s with
    | (some e, _, s1) => (.failure e, s1)
    | (none, handles, s1) => (waitallLoop env fuel handles 0 1 start, s1)

/-- commSplit: unconditional ASSERT(false) — not supported by NCCL. -/
def commSplit (color : Int) (key : Int) (s : CommState) : OpResult Unit :=
  .err .commSplitNotSupported s

/-- One recorded broadcast call made by allgatherv against NCCL. -/
structure BroadcastCall where
  root : Nat
  count : Int
  byteOffset : Int
deriving DecidableEq

/-- allgatherv: decomposed into one ncclBroadcast per root rank, root = 0 ..
_size-1, each broadcasting recvcounts[root] elements into recvbuf at byte
offset displs[root] * getDatatypeSize(datatype). -/
def allgatherv (size : Nat) (recvcounts : Nat → Int) (displs : Nat → Int)
    (datatype : datatype_t) : List BroadcastCall :=
  (List.range size).map (fun root =>
    { root := root
      count := recvcounts root
      byteOffset := displs root * (getDatatypeSize datatype : Int) })

/-- CUDA stream query results as syncStream distinguishes them:
cudaSuccess, cudaErrorNotReady, or any other error code. -/
inductive cudaError_t
  | cudaSuccess | cudaErrorNotReady | cudaErrorOther
deriving DecidableEq

/-- NCCL results as syncStream distinguishes them. -/
inductive ncclResult_t
  | ncclSuccess | ncclError
deriving DecidableEq

/-- status_t values returned by syncStream. -/
inductive status_t
  | commStatusSuccess | commStatusError | commStatusAbort
deriving DecidableEq

/-- Oracle environment for syncStream's polling loop, indexed by iteration:
the k-th cudaStreamQuery result, the k-th ncclCommGetAsyncError result (the
call's own return value paired with the async error it reports), and the
result of an ncclCommAbort issued in iteration k. -/
structure StreamEnv where
  cudaStreamQuery : Nat → cudaError_t
  ncclCommGetAsyncError : Nat → ncclResult_t × ncclResult_t
  ncclCommAbort : Nat → ncclResult_t

/-- Whether one iteration of syncStream's while(1) loop returns or falls
through to pthread_yield and the next poll. -/
inductive SyncStep
  | ret (st : status_t)
  | next
deriving DecidableEq

/-- One iteration of syncStream's loop body: query the stream; on success
return Success; on a non-not-ready error return Error; otherwise query the
async error — if that call itself fails return Error; if it reports a fault
attempt ncclCommAbort and return Abort when the abort fails; else poll
again. -/
def syncStreamStep (cudaErr : cudaError_t) (asyncQuery : ncclResult_t × ncclResult_t)
    (abortResult : ncclResult_t) : SyncStep :=
  match cudaErr with
  | .cudaSuccess => .ret .commStatusSuccess
  | .cudaErrorOther => .ret .commStatusError
  | .cudaErrorNotReady =>
    if asyncQuery.1 ≠ .ncclSuccess then .ret .commStatusError
    else if asyncQuery.2 ≠ .ncclSuccess then
      if abortResult ≠ .ncclSuccess then .ret .commStatusAbort else .next
    else .next

/-- syncStream: iterate the loop body from iteration k, with fuel bounding
the number of polls the model runs; none models a loop still spinning. -/
def syncStream (env : StreamEnv) : Nat → Nat → Option status_t
  | 0, _ => none
  | fuel + 1, k =>
    match syncStreamStep (env.cudaStreamQuery k) (env.ncclCommGetAsyncError k)
        (env.ncclCommAbort k) with
    | .ret st => some st
    | .next => syncStream env fuel (k + 1)

/-- Host-visible actions barrier performs, in order. -/
inductive BarrierEvent
  | memsetSendBuff (byteValue : Nat)
  | memsetRecvBuff (byteValue : Nat)
  | allreduceCall (count : Nat) (d : datatype_t) (o : op_t)
  | syncStreamCall
deriving DecidableEq

/-- barrier: memset _sendbuff and _recvbuff to byte value 1 on _stream,
allreduce 1 INT element with SUM on _stream, then ASSERT that syncStream
returns commStatusSuccess. -/
def barrier (env : StreamEnv) (fuel : Nat) : List BarrierEvent × WaitOutcome :=
  ([.memsetSendBuff 1, .memsetRecvBuff 1, .allreduceCall 1 .INT .SUM, .syncStreamCall],
    match syncStream env fuel 0 with
    | some .commStatusSuccess => .success
    | some _ => .failure .syncStreamFailed
    | none => .running)

/-- The point-to-point operations whose interleavings drive the registry. -/
inductive CommOp
  | isendOp (ucp_req : Nat)
  | irecvOp (ucp_req : Nat)
  | waitallOp (env : TransportEnv) (fuel : Nat) (ids : List request_t)

/-- Registry state after one operation (successful or thrown). -/
def runOp (cfg : CommConfig) (s : CommState) : CommOp → CommState
  | .isendOp h => opState (isend cfg h s)
  | .irecvOp h => opState (irecv cfg h s)
  | .waitallOp env fuel ids => (waitall cfg env fuel ids s).2

/-- Registry state after a sequence of operations. -/
def runOps (cfg : CommConfig) (ops : List CommOp) (s : CommState) : CommState :=
  ops.foldl (runOp cfg) s

/-- Registry state of a freshly constructed communicator:
_next_request_id = 0, empty in-flight map, empty free set. -/
def initialState : CommState := ⟨0, [], []⟩

/-- The configuration assert that fires first for a communicator missing the
message transport: p2p_enabled is checked before the worker handle. -/
def missingTransportError (cfg : CommConfig) : CommError :=
  if cfg.p2p_enabled = false then .notInitializedForP2p
  else .ucpWorkerNotInitialized

/-- Configuration of a communicator built by the point-to-point constructor. -/
def cfgP2p : CommConfig := ⟨true, true⟩

/-- Transport environment in which no request ever progresses or completes
and the clock jumps past the 10-second stall threshold after the initial
reading. -/
def stallEnv : TransportEnv where
  timeAt := fun t => if t = 0 then 0 else 100
  progressAt := fun _ => 0
  needs_release := fun _ => true
  is_ptr := fun _ => true
  is_err := fun _ => false
  completedAt := fun _ _ => 0

/-- Stream environment whose stream reports pending twice and then success,
with no transport faults. -/
def pendingTwiceEnv : StreamEnv where
  cudaStreamQuery := fun k => if k < 2 then .cudaErrorNotReady else .cudaSuccess
  ncclCommGetAsyncError := fun _ => (.ncclSuccess, .ncclSuccess)
  ncclCommAbort := fun _ => .ncclSuccess

/-- Stream environment whose very first stream query reports a non-not-ready
error. -/
def erroringStreamEnv : StreamEnv where
  cudaStreamQuery := fun _ => .cudaErrorOther
  ncclCommGetAsyncError := fun _ => (.ncclSuccess, .ncclSuccess)
  ncclCommAbort := fun _ => .ncclSuccess

/-- Helper for the syncStream polling bound: while every iteration from j on
reports not-ready with a healthy transport, and iteration j + n reports
success, the loop returns Success using exactly n + 1 polls of fuel. -/
theorem syncStream_pending_succeeds (env : StreamEnv) :
    ∀ (n j : Nat),
      (∀ k, k < n → env.cudaStreamQuery (j + k) = .cudaErrorNotReady ∧
        env.ncclCommGetAsyncError (j + k) = (.ncclSuccess, .ncclSuccess)) →
      env.cudaStreamQuery (j + n) = .cudaSuccess →
      syncStream env (n + 1) j = some .commStatusSuccess := by
  intro n
  induction n with
  | zero =>
    intro j h hdone
    rw [Nat.add_zero] at hdone
    simp [syncStream, syncStreamStep, hdone]
  | succ m ih =>
    intro j h hdone
    obtain ⟨hq, ha⟩ := h 0 (by omega)
    rw [Nat.add_zero] at hq ha
    have step : syncStream env (m + 1 + 1) j = syncStream env (m + 1) (j + 1) := by
      simp [syncStream, syncStreamStep, hq, ha]
    rw [step]
    apply ih (j + 1)
    · intro k hk
      have hx := h (k + 1) (by omega)
      rwa [show j + (k + 1) = j + 1 + k by omega] at hx
    · rwa [show j + 1 + m = j + (m + 1) by omega]

/-- Helper for the syncStream polling bound: with only n polls of fuel and n
not-ready reports, the loop has not yet returned. -/
theorem syncStream_pending_spins (env : StreamEnv) :
    ∀ (n j : Nat),
      (∀ k, k < n → env.cudaStreamQuery (j + k) = .cudaErrorNotReady ∧
        env.ncclCommGetAsyncError (j + k) = (.ncclSuccess, .ncclSuccess)) →
      syncStream env n j = none := by
  intro n
  induction n with
  | zero => intro j _; rfl
  | succ m ih =>
    intro j h
    obtain ⟨hq, ha⟩ := h 0 (by omega)
    rw [Nat.add_zero] at hq ha
    have step : syncStream env (m + 1) j = syncStream env m (j + 1) := by
      simp [syncStream, syncStreamStep, hq, ha]
    rw [step]
    apply ih (j + 1)
    intro k hk
    have hx := h (k + 1) (by omega)
    rwa [show j + (k + 1) = j + 1 + k by omega] at hx

/-- C9: commSplit fails with the not-supported condition for every pair of
arguments, returns no communicator, and leaves the state untouched. -/
theorem commSplit_always_fails (color key : Int) (s : CommState) :
    commSplit color key s = .err .commSplitNotSupported s := rfl

/-- C4: get_request_id pops an element of the Free Identifier Set leaving
the counter unchanged when the set is non-empty, and otherwise returns the
counter's current value and increments it by one; the in-flight table is
untouched in both cases. -/
theorem get_request_id_alloc_spec (s : CommState) :
    (s.free_requests = [] →
      (get_request_id s).1 = s.next_request_id ∧
      (get_request_id s).2.next_request_id = s.next_request_id + 1 ∧
      (get_request_id s).2.free_requests = [] ∧
      (get_request_id s).2.requests_in_flight = s.requests_in_flight) ∧
    (s.free_requests ≠ [] →
      (get_request_id s).1 ∈ s.free_requests ∧
      s.free_requests = (get_request_id s).1 :: (get_request_id s).2.free_requests ∧
      (get_request_id s).2.next_request_id = s.next_request_id ∧
      (get_request_id s).2.requests_in_flight = s.requests_in_flight) := by
  obtain ⟨n, m, f⟩ := s
  cases f with
  | nil => simp [get_request_id]
  | cons id rest => simp [get_request_id]

/-- Witness for C4: allocating from state ⟨7, [], [5]⟩ pops the free id 5
and leaves the counter at 7. -/
theorem get_request_id_alloc_spec_witness :
    (get_request_id ⟨7, [], [5]⟩).1 ∈ ([5] : List request_t) ∧
    ([5] : List request_t) =
      (get_request_id ⟨7, [], [5]⟩).1 :: (get_request_id ⟨7, [], [5]⟩).2.free_requests ∧
    (get_request_id ⟨7, [], [5]⟩).2.next_request_id = 7 ∧
    (get_request_id ⟨7, [], [5]⟩).2.requests_in_flight = [] :=
  (get_request_id_alloc_spec ⟨7, [], [5]⟩).2 (by decide)

/-- C5: allgatherv on a cluster of the given size issues exactly size
broadcast calls, the r-th of which has root r, recvcounts r elements of the
datatype, and byte offset displs r times the element size. -/
theorem allgatherv_broadcast_sequence (size : Nat) (recvcounts displs : Nat → Int)
    (datatype : datatype_t) :
    (allgatherv size recvcounts displs datatype).length = size ∧
    ∀ r, r < size →
      (allgatherv size recvcounts displs datatype)[r]? =
        some ⟨r, recvcounts r, displs r * (getDatatypeSize datatype : Int)⟩ := by
  constructor
  · simp [allgatherv]
  · intro r hr
    simp [allgatherv, List.getElem?_map, List.getElem?_range, hr]

/-- Witness for C5: the spec's example — recvcounts [2,3], displs [0,2], two
ranks, 4-byte INT elements — yields broadcasts (root 0, 2 elems, offset 0)
then (root 1, 3 elems, offset 8). -/
theorem allgatherv_broadcast_sequence_witness :
    (allgatherv 2 (fun r => if r = 0 then 2 else 3) (fun r => if r = 0 then 0 else 2)
      .INT).length = 2 ∧
    (allgatherv 2 (fun r => if r = 0 then 2 else 3) (fun r => if r = 0 then 0 else 2)
      .INT)[0]? = some ⟨0, 2, 0⟩ ∧
    (allgatherv 2 (fun r => if r = 0 then 2 else 3) (fun r => if r = 0 then 0 else 2)
      .INT)[1]? = some ⟨1, 3, 8⟩ := by
  refine ⟨(allgatherv_broadcast_sequence 2 _ _ .INT).1, ?_, ?_⟩
  · exact (allgatherv_broadcast_sequence 2 _ _ .INT).2 0 (by omega)
  · exact (allgatherv_broadcast_sequence 2 _ _ .INT).2 1 (by omega)

/-- C8: with the message transport missing (p2p not enabled or the worker
handle absent) every point-to-point call fails immediately with the
configuration error and leaves the registry state exactly as it was, so no
identifier is allocated. -/
theorem p2p_calls_fail_without_transport (cfg : CommConfig) (ucp_req : Nat)
    (env : TransportEnv) (fuel : Nat) (ids : List request_t) (s : CommState)
    (hcfg : cfg.p2p_enabled = false ∨ cfg.ucp_worker_present = false) :
    isend cfg ucp_req s = .err (missingTransportError cfg) s ∧
    irecv cfg ucp_req s = .err (missingTransportError cfg) s ∧
    waitall cfg env fuel ids s = (.failure (missingTransportError cfg), s) := by
  obtain ⟨p, w⟩ := cfg
  rcases hcfg with h | h <;> simp only at h <;> subst h
  · cases w <;>
      simp [isend, irecv, waitall, missingTransportError, UCX_ENABLED]
  · cases p <;>
      simp [isend, irecv, waitall, missingTransportError, UCX_ENABLED]

/-- Witness for C8: a collective-only communicator rejects isend, irecv and
waitall without touching the fresh registry state. -/
theorem p2p_calls_fail_without_transport_witness :
    isend ⟨false, false⟩ 42 initialState =
      .err (missingTransportError ⟨false, false⟩) initialState ∧
    irecv ⟨false, false⟩ 42 initialState =
      .err (missingTransportError ⟨false, false⟩) initialState ∧
    waitall ⟨false, false⟩ stallEnv 5 [] initialState =
      (.failure (missingTransportError ⟨false, false⟩), initialState) :=
  p2p_calls_fail_without_transport ⟨false, false⟩ 42 stallEnv 5 [] initialState
    (Or.inl rfl)

/-- C6: barrier performs exactly the sequence memset-send, memset-recv (both
to the nonzero sentinel byte 1), a 1-element INT SUM allreduce, then the
synchronous stream wait; when syncStream reports anything but Success the
call fails as the communicator-fatal condition. -/
theorem barrier_event_sequence (env : StreamEnv) (fuel : Nat) (st : status_t)
    (hsync : syncStream env fuel 0 = some st) (hne : st ≠ .commStatusSuccess) :
    (barrier env fuel).1 =
      [.memsetSendBuff 1, .memsetRecvBuff 1, .allreduceCall 1 .INT .SUM,
        .syncStreamCall] ∧
    (∀ v, BarrierEvent.memsetSendBuff v ∈ (barrier env fuel).1 → v ≠ 0) ∧
    (∀ v, BarrierEvent.memsetRecvBuff v ∈ (barrier env fuel).1 → v ≠ 0) ∧
    (barrier env fuel).2 = .failure .syncStreamFailed := by
  refine ⟨rfl, ?_, ?_, ?_⟩
  · intro v hv
    simp [barrier] at hv
    omega
  · intro v hv
    simp [barrier] at hv
    omega
  · simp only [barrier, hsync]

/-- Witness for C6: a stream whose first query errors makes syncStream
return Error and barrier fail, after the fixed event sequence. -/
theorem barrier_event_sequence_witness :
    (barrier erroringStreamEnv 1).1 =
      [.memsetSendBuff 1, .memsetRecvBuff 1, .allreduceCall 1 .INT .SUM,
        .syncStreamCall] ∧
    (barrier erroringStreamEnv 1).2 = .failure .syncStreamFailed :=
  ⟨(barrier_event_sequence erroringStreamEnv 1 .commStatusError rfl (by decide)).1,
    (barrier_event_sequence erroringStreamEnv 1 .commStatusError rfl
      (by decide)).2.2.2⟩

/-- C7: syncStream returns a status from {Success, Error, Abort}; with N
not-ready polls before a successful stream query it returns Success with
exactly N+1 polls (and not after only N); and one loop iteration returns
Success exactly when the stream query succeeds, Error exactly when the query
errors other than not-ready or the async-error retrieval itself fails, and
Abort exactly when a pending stream shows a transport fault and the
attempted abort fails. -/
theorem syncStream_poll_spec (env : StreamEnv) (N : Nat)
    (hpend : ∀ k, k < N → env.cudaStreamQuery k = .cudaErrorNotReady)
    (hasync : ∀ k, k < N → env.ncclCommGetAsyncError k = (.ncclSuccess, .ncclSuccess))
    (hdone : env.cudaStreamQuery N = .cudaSuccess) :
    syncStream env (N + 1) 0 = some .commStatusSuccess ∧
    syncStream env N 0 = none ∧
    (∀ q g a,
      (syncStreamStep q g a = .ret .commStatusSuccess ↔ q = .cudaSuccess) ∧
      (syncStreamStep q g a = .ret .commStatusError ↔
        (q = .cudaErrorOther ∨ (q = .cudaErrorNotReady ∧ g.1 ≠ .ncclSuccess))) ∧
      (syncStreamStep q g a = .ret .commStatusAbort ↔
        (q = .cudaErrorNotReady ∧ g.1 = .ncclSuccess ∧ g.2 ≠ .ncclSuccess ∧
          a ≠ .ncclSuccess))) := by
  refine ⟨?_, ?_, ?_⟩
  · apply syncStream_pending_succeeds env N 0
    · intro k hk
      simp only [Nat.zero_add]
      exact ⟨hpend k hk, hasync k hk⟩
    · simpa using hdone
  · apply syncStream_pending_spins env N 0
    intro k hk
    simp only [Nat.zero_add]
    exact ⟨hpend k hk, hasync k hk⟩
  · intro q g a
    obtain ⟨g1, g2⟩ := g
    cases q <;> cases g1 <;> cases g2 <;> cases a <;> simp [syncStreamStep]

/-- Witness for C7: the environment that is pending twice succeeds with 3
polls of fuel and is still spinning with 2. -/
theorem syncStream_poll_spec_witness :
    syncStream pendingTwiceEnv 3 0 = some .commStatusSuccess ∧
    syncStream pendingTwiceEnv 2 0 = none :=
  ⟨(syncStream_poll_spec pendingTwiceEnv 2 (by decide) (by decide) (by decide)).1,
    (syncStream_poll_spec pendingTwiceEnv 2 (by decide) (by decide) (by decide)).2.1⟩

/-- Keys of a cons map. -/
theorem keysOf_cons (k2 : request_t) (v : Nat) (rest : List (request_t × Nat)) :
    keysOf ((k2, v) :: rest) = k2 :: keysOf rest := rfl

/-- Lookup fails exactly on keys absent from the map. -/
theorem mapLookup_eq_none_iff (k : request_t) (m : List (request_t × Nat)) :
    mapLookup k m = none ↔ k ∉ keysOf m := by
  induction m with
  | nil => simp [mapLookup, keysOf]
  | cons kv rest ih =>
    obtain ⟨k2, v⟩ := kv
    rw [keysOf_cons]
    by_cases h : k2 = k
    · subst h
      simp [mapLookup]
    · rw [show mapLookup k ((k2, v) :: rest) = mapLookup k rest from by
        simp [mapLookup, h], ih, List.mem_cons]
      constructor
      · intro hnk
        rintro (heq | hmem)
        · exact h heq.symm
        · exact hnk hmem
      · intro hnk hmem
        exact hnk (Or.inr hmem)

/-- A successful lookup's key is among the map's keys. -/
theorem mem_keysOf_of_mapLookup (k : request_t) (v : Nat)
    (m : List (request_t × Nat)) (h : mapLookup k m = some v) : k ∈ keysOf m := by
  by_contra hk
  rw [← mapLookup_eq_none_iff] at hk
  rw [hk] at h
  exact Option.noConfusion h

/-- A present key's lookup succeeds. -/
theorem mapLookup_isSome_of_mem (k : request_t) (m : List (request_t × Nat))
    (h : k ∈ keysOf m) : ∃ v, mapLookup k m = some v := by
  cases hl : mapLookup k m with
  | none => exact absurd h ((mapLookup_eq_none_iff k m).mp hl)
  | some v => exact ⟨v, rfl⟩

/-- Inserting a fresh key appends the new entry. -/
theorem mapInsert_of_not_mem (k : request_t) (v : Nat)
    (m : List (request_t × Nat)) (h : k ∉ keysOf m) :
    mapInsert k v m = m ++ [(k, v)] := by
  simp only [mapInsert, (mapLookup_eq_none_iff k m).mpr h]

/-- Erasing yields a sublist of the map. -/
theorem mapErase_sublist (k : request_t) (m : List (request_t × Nat)) :
    (mapErase k m).Sublist m := by
  induction m with
  | nil => simp [mapErase]
  | cons kv rest ih =>
    obtain ⟨k2, v⟩ := kv
    by_cases h : k2 = k
    · simp only [mapErase, if_pos h]
      exact List.sublist_cons_self _ _
    · simp only [mapErase, if_neg h]
      exact ih.cons₂ _

/-- Keys of the erased map form a sublist of the original keys. -/
theorem keysOf_mapErase_sublist (k : request_t) (m : List (request_t × Nat)) :
    (keysOf (mapErase k m)).Sublist (keysOf m) :=
  (mapErase_sublist k m).map Prod.fst

/-- Under unique keys, erasing a key removes it from the key set. -/
theorem not_mem_keysOf_mapErase_self (k : request_t) (m : List (request_t × Nat))
    (hnd : (keysOf m).Nodup) : k ∉ keysOf (mapErase k m) := by
  induction m with
  | nil => simp [mapErase, keysOf]
  | cons kv rest ih =>
    obtain ⟨k2, v⟩ := kv
    simp only [keysOf, List.map_cons, List.nodup_cons] at hnd
    obtain ⟨hk2, hrest⟩ := hnd
    by_cases h : k2 = k
    · subst h
      simp only [mapErase, if_pos rfl]
      exact hk2
    · simp only [mapErase, if_neg h, keysOf, List.map_cons, List.mem_cons]
      rintro (rfl | hx)
      · exact h rfl
      · exact ih hrest hx

/-- Erasing another key keeps a key present. -/
theorem mem_keysOf_mapErase_of_ne (k x : request_t) (m : List (request_t × Nat))
    (hx : x ∈ keysOf m) (hne : x ≠ k) : x ∈ keysOf (mapErase k m) := by
  induction m with
  | nil => simp [keysOf] at hx
  | cons kv rest ih =>
    obtain ⟨k2, v⟩ := kv
    simp only [keysOf, List.map_cons, List.mem_cons] at hx
    by_cases h : k2 = k
    · subst h
      simp only [mapErase, if_pos rfl]
      rcases hx with rfl | hx
      · exact absurd rfl hne
      · exact hx
    · simp only [mapErase, if_neg h, keysOf, List.map_cons, List.mem_cons]
      rcases hx with rfl | hx
      · exact Or.inl rfl
      · exact Or.inr (ih hx)

/-- Membership in the free set after a set insert. -/
theorem mem_setInsert_iff (x y : request_t) (l : List request_t) :
    x ∈ setInsert y l ↔ x = y ∨ x ∈ l := by
  by_cases h : y ∈ l
  · simp only [setInsert, if_pos h]
    constructor
    · exact Or.inr
    · rintro (rfl | hx)
      · exact h
      · exact hx
  · simp [setInsert, if_neg h, or_comm]

/-- The inserted element is in the set. -/
theorem self_mem_setInsert (y : request_t) (l : List request_t) :
    y ∈ setInsert y l :=
  (mem_setInsert_iff y y l).mpr (Or.inl rfl)

/-- Set insert keeps old elements. -/
theorem subset_setInsert (y : request_t) (l : List request_t) :
    l ⊆ setInsert y l :=
  fun _ hx => (mem_setInsert_iff _ y l).mpr (Or.inr hx)

/-- Set insert keeps the set duplicate-free. -/
theorem nodup_setInsert (y : request_t) (l : List request_t) (h : l.Nodup) :
    (setInsert y l).Nodup := by
  by_cases hy : y ∈ l
  · simpa [setInsert, if_pos hy] using h
  · rw [setInsert, if_neg hy]
    refine List.nodup_append.mpr ⟨h, List.nodup_singleton y, ?_⟩
    intro a ha hb
    rw [List.mem_singleton] at hb
    subst hb
    exact hy ha

/-- Registry invariant maintained across all operations: both containers are
duplicate-free, the Free Identifier Set is disjoint from the In-Flight
Request Table's keys, and every identifier either container holds is below
the monotonic counter. -/
def RegistryInv (s : CommState) : Prop :=
  s.free_requests.Nodup ∧
  (inFlightKeys s).Nodup ∧
  (∀ id ∈ s.free_requests, id ∉ inFlightKeys s) ∧
  (∀ id ∈ s.free_requests, id < s.next_request_id) ∧
  (∀ id ∈ inFlightKeys s, id < s.next_request_id)

/-- Allocating an id and registering it in the in-flight map — the registry
effect shared by isend and irecv — preserves the invariant. -/
theorem alloc_register_inv (ucp_req : Nat) (s : CommState) (hInv : RegistryInv s) :
    RegistryInv { (get_request_id s).2 with
      requests_in_flight :=
        mapInsert (get_request_id s).1 ucp_req
          (get_request_id s).2.requests_in_flight } := by
  obtain ⟨hndF, hndK, hdisj, hbF, hbK⟩ := hInv
  obtain ⟨n, m, f⟩ := s
  simp only [inFlightKeys] at hndK hdisj hbK
  cases f with
  | nil =>
    have hn : n ∉ keysOf m := fun hx => absurd (hbK n hx) (lt_irrefl n)
    simp only [get_request_id]
    rw [RegistryInv]
    simp only [inFlightKeys, mapInsert_of_not_mem _ _ _ hn, keysOf,
      List.map_append, List.map_cons, List.map_nil]
    refine ⟨List.nodup_nil, ?_, ?_, ?_, ?_⟩
    · refine List.nodup_append.mpr ⟨hndK, List.nodup_singleton n, ?_⟩
      intro a ha hb
      rw [List.mem_singleton] at hb
      subst hb
      exact hn ha
    · intro id hid
      exact absurd hid (List.not_mem_nil id)
    · intro id hid
      exact absurd hid (List.not_mem_nil id)
    · intro id hid
      rcases List.mem_append.mp hid with hx | hx
      · exact Nat.lt_succ_of_lt (hbK id hx)
      · rw [List.mem_singleton] at hx
        subst hx
        exact Nat.lt_succ_self id
  | cons r rest =>
    rw [List.nodup_cons] at hndF
    obtain ⟨hrF, hndRest⟩ := hndF
    have hr : r ∉ keysOf m := hdisj r (List.mem_cons_self r rest)
    simp only [get_request_id]
    rw [RegistryInv]
    simp only [inFlightKeys, mapInsert_of_not_mem _ _ _ hr, keysOf,
      List.map_append, List.map_cons, List.map_nil]
    refine ⟨hndRest, ?_, ?_, ?_, ?_⟩
    · refine List.nodup_append.mpr ⟨hndK, List.nodup_singleton r, ?_⟩
      intro a ha hb
      rw [List.mem_singleton] at hb
      subst hb
      exact hr ha
    · intro id hid hmem
      rcases List.mem_append.mp hmem with hx | hx
      · exact hdisj id (List.mem_cons_of_mem r hid) hx
      · rw [List.mem_singleton] at hx
        subst hx
        exact hrF hid
    · intro id hid
      exact hbF id (List.mem_cons_of_mem r hid)
    · intro id hid
      rcases List.mem_append.mp hid with hx | hx
      · exact hbK id hx
      · rw [List.mem_singleton] at hx
        subst hx
        exact hbF id (List.mem_cons_self id rest)

/-- The collect phase of waitall preserves the invariant, whether or not it
trips the invalid-request assert. -/
theorem waitallCollect_inv (ids : List request_t) :
    ∀ (acc : List Nat) (s : CommState), RegistryInv s →
      RegistryInv (waitallCollect ids acc s).2.2 := by
  induction ids with
  | nil => intro acc s h; exact h
  | cons id rest ih =>
    intro acc s h
    simp only [waitallCollect]
    cases hl : mapLookup id s.requests_in_flight with
    | none => exact h
    | some hd =>
      apply ih
      obtain ⟨hndF, hndK, hdisj, hbF, hbK⟩ := h
      have hidmem : id ∈ inFlightKeys s := mem_keysOf_of_mapLookup _ _ _ hl
      refine ⟨nodup_setInsert _ _ hndF, ?_, ?_, ?_, ?_⟩
      · exact hndK.sublist (keysOf_mapErase_sublist id s.requests_in_flight)
      · intro x hx
        rw [mem_setInsert_iff] at hx
        rcases hx with rfl | hx
        · exact not_mem_keysOf_mapErase_self _ _ hndK
        · intro hmem
          exact hdisj x hx
            ((keysOf_mapErase_sublist id s.requests_in_flight).subset hmem)
      · intro x hx
        rw [mem_setInsert_iff] at hx
        rcases hx with rfl | hx
        · exact hbK _ hidmem
        · exact hbF x hx
      · intro x hx
        exact hbK x ((keysOf_mapErase_sublist id s.requests_in_flight).subset hx)

/-- For an enabled communicator, waitall's registry state at return or at
any failure is the collect phase's final state: the polling loop never
touches the registry. -/
theorem waitall_state_eq (cfg : CommConfig) (env : TransportEnv) (fuel : Nat)
    (ids : List request_t) (s : CommState)
    (hp : cfg.p2p_enabled = true) (hw : cfg.ucp_worker_present = true) :
    (waitall cfg env fuel ids s).2 = (waitallCollect ids [] s).2.2 := by
  simp only [waitall, UCX_ENABLED, hp, hw]
  rcases waitallCollect ids [] s with ⟨r, hs, s1⟩
  cases r <;> rfl

/-- The full waitall preserves the invariant. -/
theorem waitall_inv (cfg : CommConfig) (env : TransportEnv) (fuel : Nat)
    (ids : List request_t) (s : CommState) (h : RegistryInv s) :
    RegistryInv (waitall cfg env fuel ids s).2 := by
  cases hp : cfg.p2p_enabled with
  | false => simpa [waitall, UCX_ENABLED, hp] using h
  | true =>
    cases hw : cfg.ucp_worker_present with
    | false => simpa [waitall, UCX_ENABLED, hp, hw] using h
    | true =>
      rw [waitall_state_eq cfg env fuel ids s hp hw]
      exact waitallCollect_inv ids [] s h

/-- isend's state for an enabled communicator. -/
theorem isend_state_eq (cfg : CommConfig) (ucp_req : Nat) (s : CommState)
    (hp : cfg.p2p_enabled = true) (hw : cfg.ucp_worker_present = true) :
    opState (isend cfg ucp_req s) = { (get_request_id s).2 with
      requests_in_flight :=
        mapInsert (get_request_id s).1 ucp_req
          (get_request_id s).2.requests_in_flight } := by
  simp [isend, UCX_ENABLED, hp, hw, opState]

/-- irecv's state for an enabled communicator. -/
theorem irecv_state_eq (cfg : CommConfig) (ucp_req : Nat) (s : CommState)
    (hp : cfg.p2p_enabled = true) (hw : cfg.ucp_worker_present = true) :
    opState (irecv cfg ucp_req s) = { (get_request_id s).2 with
      requests_in_flight :=
        mapInsert (get_request_id s).1 ucp_req
          (get_request_id s).2.requests_in_flight } := by
  simp [irecv, UCX_ENABLED, hp, hw, opState]

/-- Every single operation preserves the invariant. -/
theorem runOp_inv (cfg : CommConfig) (s : CommState) (op : CommOp)
    (h : RegistryInv s) : RegistryInv (runOp cfg s op) := by
  cases op with
  | isendOp u =>
    cases hp : cfg.p2p_enabled with
    | false => simpa [runOp, isend, UCX_ENABLED, hp, opState] using h
    | true =>
      cases hw : cfg.ucp_worker_present with
      | false => simpa [runOp, isend, UCX_ENABLED, hp, hw, opState] using h
      | true =>
        simp only [runOp]
        rw [isend_state_eq cfg u s hp hw]
        exact alloc_register_inv u s h
  | irecvOp u =>
    cases hp : cfg.p2p_enabled with
    | false => simpa [runOp, irecv, UCX_ENABLED, hp, opState] using h
    | true =>
      cases hw : cfg.ucp_worker_present with
      | false => simpa [runOp, irecv, UCX_ENABLED, hp, hw, opState] using h
      | true =>
        simp only [runOp]
        rw [irecv_state_eq cfg u s hp hw]
        exact alloc_register_inv u s h
  | waitallOp env fuel ids =>
    simp only [runOp]
    exact waitall_inv cfg env fuel ids s h

/-- Sequences of operations preserve the invariant. -/
theorem runOps_inv (cfg : CommConfig) (ops : List CommOp) :
    ∀ s : CommState, RegistryInv s → RegistryInv (runOps cfg ops s) := by
  induction ops with
  | nil => intro s h; exact h
  | cons op rest ih =>
    intro s h
    exact ih (runOp cfg s op) (runOp_inv cfg s op h)

/-- The freshly constructed registry satisfies the invariant. -/
theorem initialState_inv : RegistryInv initialState := by
  refine ⟨List.nodup_nil, List.nodup_nil, ?_, ?_, ?_⟩ <;>
    intro id hid <;> exact absurd hid (List.not_mem_nil id)

/-- C3: after any sequence of isend, irecv and waitall operations from the
initial state, the Free Identifier Set is disjoint from the keys of the
In-Flight Request Table. -/
theorem free_set_disjoint_from_in_flight (cfg : CommConfig) (ops : List CommOp) :
    ∀ id ∈ (runOps cfg ops initialState).free_requests,
      id ∉ inFlightKeys (runOps cfg ops initialState) :=
  (runOps_inv cfg ops initialState initialState_inv).2.2.1

/-- Witness for C3: after an isend and a timed-out waitall, identifier 0 is
free and indeed absent from the in-flight table. -/
theorem free_set_disjoint_from_in_flight_witness :
    (0 : request_t) ∉ inFlightKeys
      (runOps cfgP2p [.isendOp 42, .waitallOp stallEnv 5 [0]] initialState) :=
  free_set_disjoint_from_in_flight cfgP2p [.isendOp 42, .waitallOp stallEnv 5 [0]]
    0 (by decide)

/-- The collect phase only grows the free set. -/
theorem waitallCollect_free_mono (ids : List request_t) :
    ∀ (acc : List Nat) (s : CommState) (x : request_t),
      x ∈ s.free_requests → x ∈ (waitallCollect ids acc s).2.2.free_requests := by
  induction ids with
  | nil => intro acc s x hx; exact hx
  | cons id rest ih =>
    intro acc s x hx
    simp only [waitallCollect]
    cases hl : mapLookup id s.requests_in_flight with
    | none => exact hx
    | some hd => exact ih _ _ x (subset_setInsert id s.free_requests hx)

/-- The collect phase never adds keys to the in-flight table. -/
theorem waitallCollect_keys_antimono (ids : List request_t) :
    ∀ (acc : List Nat) (s : CommState) (x : request_t),
      x ∉ inFlightKeys s → x ∉ inFlightKeys (waitallCollect ids acc s).2.2 := by
  induction ids with
  | nil => intro acc s x hx; exact hx
  | cons id rest ih =>
    intro acc s x hx
    simp only [waitallCollect]
    cases hl : mapLookup id s.requests_in_flight with
    | none => exact hx
    | some hd =>
      refine ih _ _ x ?_
      intro hmem
      exact hx ((keysOf_mapErase_sublist id s.requests_in_flight).subset hmem)

/-- When the collect phase runs to completion, every named identifier ends
up in the free set of its final state. -/
theorem waitallCollect_mem_free (ids : List request_t) :
    ∀ (acc : List Nat) (s : CommState),
      (waitallCollect ids acc s).1 = none →
      ∀ id ∈ ids, id ∈ (waitallCollect ids acc s).2.2.free_requests := by
  induction ids with
  | nil => intro acc s _ id hid; exact absurd hid (List.not_mem_nil id)
  | cons id0 rest ih =>
    intro acc s hok id hid
    simp only [waitallCollect] at hok ⊢
    cases hl : mapLookup id0 s.requests_in_flight with
    | none =>
      rw [hl] at hok
      exact Option.noConfusion hok
    | some hd =>
      rw [hl] at hok
      rcases List.mem_cons.mp hid with rfl | hmem
      · exact waitallCollect_free_mono rest _ _ id
          (self_mem_setInsert id s.free_requests)
      · exact ih _ _ hok id hmem

/-- When the collect phase hits an absent identifier after a duplicate-free
prefix of present ones, it stops there with the invalid-request error, having
already moved the whole prefix from the in-flight table into the free set. -/
theorem waitallCollect_prefix_invalid (bad : request_t) (rest : List request_t) :
    ∀ (pre : List request_t) (acc : List Nat) (s : CommState),
      (∀ id ∈ pre, id ∈ inFlightKeys s) → pre.Nodup →
      (inFlightKeys s).Nodup → bad ∉ inFlightKeys s →
      (waitallCollect (pre ++ bad :: rest) acc s).1 = some (.invalidRequest bad) ∧
      ∀ id ∈ pre,
        id ∈ (waitallCollect (pre ++ bad :: rest) acc s).2.2.free_requests ∧
        id ∉ inFlightKeys (waitallCollect (pre ++ bad :: rest) acc s).2.2 := by
  intro pre
  induction pre with
  | nil =>
    intro acc s _ _ _ hbad
    have hl : mapLookup bad s.requests_in_flight = none :=
      (mapLookup_eq_none_iff _ _).mpr hbad
    refine ⟨?_, fun id hid => absurd hid (List.not_mem_nil id)⟩
    simp [waitallCollect, hl]
  | cons id0 pre2 ih =>
    intro acc s hpre hnd hndK hbad
    obtain ⟨v, hv⟩ :=
      mapLookup_isSome_of_mem id0 s.requests_in_flight
        (hpre id0 (List.mem_cons_self id0 pre2))
    rw [List.nodup_cons] at hnd
    obtain ⟨hid0, hnd2⟩ := hnd
    have hstep :
        waitallCollect ((id0 :: pre2) ++ bad :: rest) acc s =
          waitallCollect (pre2 ++ bad :: rest) (acc ++ [v])
            { s with
              free_requests := setInsert id0 s.free_requests,
              requests_in_flight := mapErase id0 s.requests_in_flight } := by
      simp [waitallCollect, hv]
    have hkeys1 :
        inFlightKeys { s with
          free_requests := setInsert id0 s.free_requests,
          requests_in_flight := mapErase id0 s.requests_in_flight } =
          keysOf (mapErase id0 s.requests_in_flight) := rfl
    have hih := ih (acc ++ [v])
      { s with
        free_requests := setInsert id0 s.free_requests,
        requests_in_flight := mapErase id0 s.requests_in_flight }
      (by
        intro id hid
        rw [hkeys1]
        refine mem_keysOf_mapErase_of_ne id0 id s.requests_in_flight
          (hpre id (List.mem_cons_of_mem id0 hid)) ?_
        intro heq
        subst heq
        exact hid0 hid)
      hnd2
      (by
        rw [hkeys1]
        exact hndK.sublist (keysOf_mapErase_sublist id0 s.requests_in_flight))
      (by
        rw [hkeys1]
        intro hmem
        exact hbad ((keysOf_mapErase_sublist id0 s.requests_in_flight).subset hmem))
    rw [hstep]
    refine ⟨hih.1, ?_⟩
    intro id hid
    rcases List.mem_cons.mp hid with rfl | hmem
    · constructor
      · exact waitallCollect_free_mono (pre2 ++ bad :: rest) _ _ id
          (self_mem_setInsert id s.free_requests)
      · refine waitallCollect_keys_antimono (pre2 ++ bad :: rest) _ _ id ?_
        rw [hkeys1]
        exact not_mem_keysOf_mapErase_self id s.requests_in_flight hndK
    · exact hih.2 id hmem

/-- For an enabled communicator, a collect-phase failure is waitall's
outcome, with the collect phase's state. -/
theorem waitall_collect_err (cfg : CommConfig) (env : TransportEnv) (fuel : Nat)
    (ids : List request_t) (s : CommState) (e : CommError)
    (hp : cfg.p2p_enabled = true) (hw : cfg.ucp_worker_present = true)
    (hc : (waitallCollect ids [] s).1 = some e) :
    waitall cfg env fuel ids s = (.failure e, (waitallCollect ids [] s).2.2) := by
  simp only [waitall, UCX_ENABLED, hp, hw]
  rcases hcc : waitallCollect ids [] s with ⟨r, hs, s1⟩
  rw [hcc] at hc
  simp only at hc
  subst hc
  rfl

/-- C10: a waitall failing with the invalid-request error at position k is
not atomic — with the identifiers before position k present (and pairwise
distinct) and the identifier at position k absent, the call fails with
invalid-request on that identifier, yet every earlier identifier has already
been removed from the In-Flight Request Table and placed in the Free
Identifier Set. -/
theorem waitall_invalid_request_partial_release (cfg : CommConfig)
    (env : TransportEnv) (fuel : Nat) (pre : List request_t) (bad : request_t)
    (rest : List request_t) (s : CommState)
    (hp : cfg.p2p_enabled = true) (hw : cfg.ucp_worker_present = true)
    (hpre : ∀ id ∈ pre, id ∈ inFlightKeys s) (hnd : pre.Nodup)
    (hndK : (inFlightKeys s).Nodup) (hbad : bad ∉ inFlightKeys s) :
    (waitall cfg env fuel (pre ++ bad :: rest) s).1 =
      .failure (.invalidRequest bad) ∧
    ∀ id ∈ pre,
      id ∈ (waitall cfg env fuel (pre ++ bad :: rest) s).2.free_requests ∧
      id ∉ inFlightKeys (waitall cfg env fuel (pre ++ bad :: rest) s).2 := by
  have hcol := waitallCollect_prefix_invalid bad rest pre [] s hpre hnd hndK hbad
  have heq := waitall_collect_err cfg env fuel (pre ++ bad :: rest) s
    (.invalidRequest bad) hp hw hcol.1
  rw [heq]
  exact ⟨rfl, hcol.2⟩

/-- Witness for C10: waitall on [0, 5] with only 0 in flight fails with
invalid-request 5, and 0 is already free and out of the table. -/
theorem waitall_invalid_request_partial_release_witness :
    (waitall cfgP2p stallEnv 5 ([0] ++ 5 :: []) ⟨1, [(0, 42)], []⟩).1 =
      .failure (.invalidRequest 5) ∧
    0 ∈ (waitall cfgP2p stallEnv 5 ([0] ++ 5 :: []) ⟨1, [(0, 42)], []⟩).2.free_requests ∧
    0 ∉ inFlightKeys (waitall cfgP2p stallEnv 5 ([0] ++ 5 :: []) ⟨1, [(0, 42)], []⟩).2 := by
  have h := waitall_invalid_request_partial_release cfgP2p stallEnv 5 [0] 5 []
    ⟨1, [(0, 42)], []⟩ rfl rfl (by decide) (by decide) (by decide) (by decide)
  exact ⟨h.1, (h.2 0 (List.mem_singleton.mpr rfl)).1,
    (h.2 0 (List.mem_singleton.mpr rfl)).2⟩

/-- Predicate on the transport environment: the operation behind a handle is
never reported complete at any point of the polling. -/
def neverCompletes (env : TransportEnv) (handle : Nat) : Prop :=
  ∀ p, env.completedAt handle p = 0

/-- Counterexample to C1: identifier 0 is placed in the free pool by a
waitall whose operation never completes (the waitall times out), and the
next isend returns identifier 0 again while that operation is still
pending. -/
theorem waitall_timeout_then_isend_returns_pending_id :
    neverCompletes stallEnv 42 ∧
    isend cfgP2p 42 initialState = .ok 0 ⟨1, [(0, 42)], []⟩ ∧
    waitall cfgP2p stallEnv 5 [0] ⟨1, [(0, 42)], []⟩ =
      (.failure .timedOut, ⟨1, [], [0]⟩) ∧
    0 ∈ (⟨1, [], [0]⟩ : CommState).free_requests ∧
    isend cfgP2p 43 ⟨1, [], [0]⟩ = .ok 0 ⟨1, [(0, 43)], []⟩ :=
  ⟨fun _ => rfl, by decide, by decide, by decide, by decide⟩

/-- C1 amended: every identifier named in a waitall that passes the
invalid-request check is inserted into the free pool during the collect
phase, before the completion-polling loop runs, and waitall's final registry
state is exactly the collect phase's state whatever the polling outcome —
so on a timeout failure still-pending identifiers are already eligible for
reuse. -/
theorem waitall_inserts_free_ids_at_entry (cfg : CommConfig) (env : TransportEnv)
    (fuel : Nat) (ids : List request_t) (s : CommState)
    (hp : cfg.p2p_enabled = true) (hw : cfg.ucp_worker_present = true)
    (hok : (waitallCollect ids [] s).1 = none) :
    (waitall cfg env fuel ids s).2 = (waitallCollect ids [] s).2.2 ∧
    ∀ id ∈ ids, id ∈ (waitall cfg env fuel ids s).2.free_requests := by
  have hst := waitall_state_eq cfg env fuel ids s hp hw
  refine ⟨hst, ?_⟩
  intro id hid
  rw [hst]
  exact waitallCollect_mem_free ids [] s hok id hid

/-- Witness for C1's amended claim: the timed-out waitall on [0] leaves 0 in
the free set of its final state. -/
theorem waitall_inserts_free_ids_at_entry_witness :
    (waitall cfgP2p stallEnv 5 [0] ⟨1, [(0, 42)], []⟩).2 =
      (waitallCollect [0] [] ⟨1, [(0, 42)], []⟩).2.2 ∧
    0 ∈ (waitall cfgP2p stallEnv 5 [0] ⟨1, [(0, 42)], []⟩).2.free_requests := by
  have h := waitall_inserts_free_ids_at_entry cfgP2p stallEnv 5 [0]
    ⟨1, [(0, 42)], []⟩ rfl rfl (by decide)
  exact ⟨h.1, h.2 0 (List.mem_singleton.mpr rfl)⟩

/-- Counterexample to C2: a waitall over two never-completing operations
times out, yet both identifiers sit in the Free Identifier Set afterwards
and the next isend reuses one of them. -/
theorem waitall_timeout_leaves_ids_in_free_set :
    neverCompletes stallEnv 42 ∧
    neverCompletes stallEnv 43 ∧
    waitall cfgP2p stallEnv 5 [0, 1] ⟨2, [(0, 42), (1, 43)], []⟩ =
      (.failure .timedOut, ⟨2, [], [0, 1]⟩) ∧
    0 ∈ (⟨2, [], [0, 1]⟩ : CommState).free_requests ∧
    1 ∈ (⟨2, [], [0, 1]⟩ : CommState).free_requests ∧
    isend cfgP2p 44 ⟨2, [], [0, 1]⟩ = .ok 0 ⟨2, [(0, 44)], [1]⟩ :=
  ⟨fun _ => rfl, fun _ => rfl, by decide, by decide, by decide, by decide⟩

/-- C2 amended: when waitall fails with the timeout condition, every
identifier it was passed (all having passed the invalid-request check) is in
the Free Identifier Set of the state left behind, hence eligible for reuse
by a subsequent isend/irecv. -/
theorem waitall_timeout_ids_released_and_reusable (cfg : CommConfig)
    (env : TransportEnv) (fuel : Nat) (ids : List request_t) (s : CommState)
    (hp : cfg.p2p_enabled = true) (hw : cfg.ucp_worker_present = true)
    (hok : (waitallCollect ids [] s).1 = none)
    (htimeout : (waitall cfg env fuel ids s).1 = .failure .timedOut) :
    ∀ id ∈ ids, id ∈ (waitall cfg env fuel ids s).2.free_requests := by
  intro id hid
  rw [waitall_state_eq cfg env fuel ids s hp hw]
  exact waitallCollect_mem_free ids [] s hok id hid

/-- Witness for C2's amended claim: the two-request timed-out waitall leaves
both identifiers in the Free Identifier Set. -/
theorem waitall_timeout_ids_released_and_reusable_witness :
    0 ∈ (waitall cfgP2p stallEnv 5 [0, 1] ⟨2, [(0, 42), (1, 43)], []⟩).2.free_requests ∧
    1 ∈ (waitall cfgP2p stallEnv 5 [0, 1] ⟨2, [(0, 42), (1, 43)], []⟩).2.free_requests := by
  have h := waitall_timeout_ids_released_and_reusable cfgP2p stallEnv 5 [0, 1]
    ⟨2, [(0, 42), (1, 43)], []⟩ rfl rfl (by decide) (by decide)
  exact ⟨h 0 (by decide), h 1 (by decide)⟩

end StdComms
